import Mathlib

/-!
Verification of the article-generator agent loop.

This file gives a shallow embedding of the control core of the
article-generator repository and proves the specified properties about it.

Embedded source:
* src/agents/loop.py    — the Writer → Judge orchestration loop (`_execute`, `run`)
* src/agents/judge.py   — the verdict construction of JudgeAgent.judge
* src/agents/writer.py  — the plan-query and drafting-prompt builders
* src/models/schemas.py — IterationRecord, GenerateResponse, ErrorResponse
* src/main.py           — the job record, its initial value, and the worker pool
                          boundary that absorbs exceptions re-raised by run()

The two LLM-backed agents are opaque collaborators of the loop, so a run is
parameterised by call streams: `writerF i fb` is the draft the Writer returns
on its i-th call when handed feedback `fb`, and `judgeF i d` is the verdict
the Judge returns on its i-th call for draft `d`.  Any concrete execution of
the Python loop corresponds to one such pair of streams.  The loop is modelled
as a fuel recursion (fuel = remaining iterations of `range(1, max+1)`), and it
returns both the final response value and the ordered trace of observable
events: every write into the job dict and every agent call, in program order.
-/

/-- Result object built by JudgeAgent.judge (judge.py). -/
structure JudgeResult where
  verdict : String
  annotations : List String
deriving Repr, DecidableEq

/-- Payload of the forced submit_verdict tool call (judge.py VERDICT_TOOL):
the schema guarantees a verdict string and an annotations array, which the
Anthropic client may hand over as absent, modelled with Option. -/
structure VerdictData where
  verdict : String
  annotations : Option (List String)
deriving Repr, DecidableEq

/-- JudgeAgent.judge, final step (judge.py lines 100-103): the verdict string
is passed through from the tool-call data with no validation or normalisation,
and a missing or null annotations entry becomes the empty list. -/
def judgeResultOfData (d : VerdictData) : JudgeResult :=
  { verdict := d.verdict, annotations := d.annotations.getD [] }

/-- IterationRecord (schemas.py lines 29-41).  The pydantic model declares
exactly these four fields; it declares no duration field. -/
structure IterationRecord where
  iteration : Nat
  writer_output : String
  judge_verdict : String
  judge_annotations : List String
deriving Repr, DecidableEq

/-- The IterationRecord constructor call in loop.py lines 94-102, which also
passes a duration_seconds keyword.  Pydantic models ignore unknown constructor
keywords by default (extra fields are dropped, not stored and not an error),
and IterationRecord in schemas.py declares no duration_seconds field, so the
argument is discarded.  The duration value itself comes from time.monotonic
and is nondeterministic; it is modelled as an arbitrary integer. -/
def mkIterationRecordLoop (iteration : Nat) (writer_output : String)
    (judge_verdict : String) (judge_annotations : List String)
    (duration_seconds : Int) : IterationRecord :=
  { iteration := iteration, writer_output := writer_output,
    judge_verdict := judge_verdict, judge_annotations := judge_annotations }

/-- GenerateResponse (schemas.py lines 44-54). -/
structure GenerateResponse where
  success : Bool := true
  article : String
  iterations : Nat
  history : Option (List IterationRecord) := none
deriving Repr, DecidableEq

/-- ErrorResponse (schemas.py lines 57-67). -/
structure ErrorResponse where
  success : Bool := false
  error : String
  iterations : Nat
  history : List IterationRecord
deriving Repr, DecidableEq

/-- Observable events of one run, in program order: the writes into the job
dict performed by _execute (loop.py) — performed only when a job is supplied,
and never read back by the loop itself — and the two agent calls with their
arguments and results. -/
inductive Event where
  | jobIteration (n : Nat)
  | jobPhase (p : String)
  | jobLastVerdict (v : String)
  | jobStatus (s : String)
  | jobResult (r : GenerateResponse ⊕ ErrorResponse)
  | jobError (e : String)
  | writerCall (topic : String) (feedback : Option (List String)) (draft : String)
  | judgeCall (topic : String) (article : String) (res : JudgeResult)
deriving Repr, DecidableEq

/-- The Writer → Judge loop, _execute in loop.py lines 57-126, written as a
recursion on the remaining iteration budget.  `iteration` is the 1-based loop
counter of `for iteration in range(1, max_iterations + 1)` and `fuel` the
number of iterations still available, so the top-level call uses iteration 1
and fuel max_iterations.  The returned trace lists job-dict writes and agent
calls in the exact order the source performs them. -/
def loopGo (topic : String) (verbose : Bool) (maxIterations : Nat)
    (writerF : Nat → Option (List String) → String)
    (judgeF : Nat → String → JudgeResult)
    (durations : Nat → Int) :
    Nat → Nat → Option (List String) → List IterationRecord →
    (GenerateResponse ⊕ ErrorResponse) × List Event
  | _, 0, _, history =>
      let errorResponse : ErrorResponse :=
        { error := "Article did not pass after " ++ toString maxIterations ++ " iterations."
          iterations := maxIterations
          history := history }
      (Sum.inr errorResponse,
       [Event.jobStatus "error", Event.jobError errorResponse.error,
        Event.jobResult (Sum.inr errorResponse)])
  | iteration, fuel + 1, feedback, history =>
      let draft := writerF iteration feedback
      let result := judgeF iteration draft
      let history' := history ++
        [mkIterationRecordLoop iteration draft result.verdict result.annotations
          (durations iteration)]
      let blockEvents : List Event :=
        [Event.jobIteration iteration, Event.jobPhase "writing",
         Event.writerCall topic feedback draft,
         Event.jobPhase "judging",
         Event.judgeCall topic draft result,
         Event.jobLastVerdict result.verdict]
      if result.verdict = "pass" then
        let response : GenerateResponse :=
          { article := draft
            iterations := iteration
            history := if verbose then some history' else none }
        (Sum.inl response,
         blockEvents ++ [Event.jobStatus "done", Event.jobResult (Sum.inl response)])
      else
        let rest := loopGo topic verbose maxIterations writerF judgeF durations
          (iteration + 1) fuel (some result.annotations) history'
        (rest.1, blockEvents ++ rest.2)

/-- _execute from the top: iteration counter starts at 1 with max_iterations
iterations available (loop.py line 76), no feedback and empty history
(loop.py lines 73-74).  max_iterations is read from configuration in the
source and is a parameter here. -/
def _execute (topic : String) (verbose : Bool) (maxIterations : Nat)
    (writerF : Nat → Option (List String) → String)
    (judgeF : Nat → String → JudgeResult)
    (durations : Nat → Int) :
    (GenerateResponse ⊕ ErrorResponse) × List Event :=
  loopGo topic verbose maxIterations writerF judgeF durations 1 maxIterations none []

/-- Feedback handed to the Writer at 1-based iteration i of a full run: none
on the first iteration, and afterwards exactly the annotations the Judge
returned on the previous iteration (loop.py lines 74 and 115). -/
def feedbackAt (writerF : Nat → Option (List String) → String)
    (judgeF : Nat → String → JudgeResult) : Nat → Option (List String)
  | 0 => none
  | 1 => none
  | i + 2 =>
      some (judgeF (i + 1) (writerF (i + 1) (feedbackAt writerF judgeF (i + 1)))).annotations

/-- Draft produced by the Writer at 1-based iteration i of a full run. -/
def draftAt (writerF : Nat → Option (List String) → String)
    (judgeF : Nat → String → JudgeResult) (i : Nat) : String :=
  writerF i (feedbackAt writerF judgeF i)

/-- Judge result at 1-based iteration i of a full run. -/
def resultAt (writerF : Nat → Option (List String) → String)
    (judgeF : Nat → String → JudgeResult) (i : Nat) : JudgeResult :=
  judgeF i (draftAt writerF judgeF i)

/-- Feedback at relative offset i of a partial run that starts at iteration n
with starting feedback fb.  Offset 0 is iteration n itself. -/
def fbSeq (writerF : Nat → Option (List String) → String)
    (judgeF : Nat → String → JudgeResult)
    (n : Nat) (fb : Option (List String)) : Nat → Option (List String)
  | 0 => fb
  | i + 1 =>
      some (judgeF (n + i) (writerF (n + i) (fbSeq writerF judgeF n fb i))).annotations

/-- Draft at relative offset i of a partial run starting at (n, fb). -/
def draftAtFrom (writerF : Nat → Option (List String) → String)
    (judgeF : Nat → String → JudgeResult)
    (n : Nat) (fb : Option (List String)) (i : Nat) : String :=
  writerF (n + i) (fbSeq writerF judgeF n fb i)

/-- Judge result at relative offset i of a partial run starting at (n, fb). -/
def resultAtFrom (writerF : Nat → Option (List String) → String)
    (judgeF : Nat → String → JudgeResult)
    (n : Nat) (fb : Option (List String)) (i : Nat) : JudgeResult :=
  judgeF (n + i) (draftAtFrom writerF judgeF n fb i)

/-- Number of loop iterations a partial run starting at (n, fb) with the given
fuel actually executes: it stops at the first passing verdict, else runs out
of fuel. -/
def itersExecuted (writerF : Nat → Option (List String) → String)
    (judgeF : Nat → String → JudgeResult) :
    Nat → Nat → Option (List String) → Nat
  | 0, _, _ => 0
  | fuel + 1, n, fb =>
      if (resultAtFrom writerF judgeF n fb 0).verdict = "pass" then 1
      else 1 + itersExecuted writerF judgeF fuel (n + 1) (fbSeq writerF judgeF n fb 1)

/-- Iteration records accumulated by the first c iterations of a partial run
starting at (n, fb), exactly as loop.py appends them. -/
def recsFrom (writerF : Nat → Option (List String) → String)
    (judgeF : Nat → String → JudgeResult) (durations : Nat → Int)
    (n : Nat) (fb : Option (List String)) (c : Nat) : List IterationRecord :=
  (List.range c).map fun i =>
    mkIterationRecordLoop (n + i) (draftAtFrom writerF judgeF n fb i)
      (resultAtFrom writerF judgeF n fb i).verdict
      (resultAtFrom writerF judgeF n fb i).annotations
      (durations (n + i))

/-- Event block of one loop iteration, in the order loop.py performs them:
iteration counter and phase "writing" into the job, the Writer call, phase
"judging", the Judge call, then the latest verdict into the job. -/
def iterBlock (topic : String)
    (writerF : Nat → Option (List String) → String)
    (judgeF : Nat → String → JudgeResult)
    (i : Nat) (fb : Option (List String)) : List Event :=
  [Event.jobIteration i, Event.jobPhase "writing",
   Event.writerCall topic fb (writerF i fb),
   Event.jobPhase "judging",
   Event.judgeCall topic (writerF i fb) (judgeF i (writerF i fb)),
   Event.jobLastVerdict (judgeF i (writerF i fb)).verdict]

/-- Concatenated event blocks of the first c iterations of a partial run
starting at (n, fb). -/
def blocksJoin (topic : String)
    (writerF : Nat → Option (List String) → String)
    (judgeF : Nat → String → JudgeResult)
    (n : Nat) (fb : Option (List String)) (c : Nat) : List Event :=
  ((List.range c).map fun i =>
    iterBlock topic writerF judgeF (n + i) (fbSeq writerF judgeF n fb i)).flatten

/-- Projection: value of a phase write. -/
def phaseOf : Event → Option String
  | Event.jobPhase p => some p
  | _ => none

/-- Projection: value of an iteration-counter write. -/
def iterWriteOf : Event → Option Nat
  | Event.jobIteration n => some n
  | _ => none

/-- Projection: feedback argument of a Writer call. -/
def writerFeedbackOf : Event → Option (Option (List String))
  | Event.writerCall _ fb _ => some fb
  | _ => none

/-- Projection: arguments and result of a Judge call. -/
def judgeCallOf : Event → Option (String × String × JudgeResult)
  | Event.judgeCall t a r => some (t, a, r)
  | _ => none

/-- Sequence of values written to the job phase field, in order. -/
def phaseWrites (evs : List Event) : List String :=
  evs.filterMap phaseOf

/-- Sequence of values written to the job iteration field, in order. -/
def iterationWrites (evs : List Event) : List Nat :=
  evs.filterMap iterWriteOf

/-- Feedback arguments of the Writer calls of a trace, in call order. -/
def writerFeedbacks (evs : List Event) : List (Option (List String)) :=
  evs.filterMap writerFeedbackOf

/-- The job record of main.py: the mutable dict allocated per job and read by
the polling status endpoint.  Serialisation of a response into the result slot
(model_dump) is modelled as storing the response value itself. -/
structure JobRecord where
  status : String
  iteration : Nat
  max_iterations : Nat
  phase : Option String
  last_verdict : Option String
  result : Option (GenerateResponse ⊕ ErrorResponse)
  error : Option String
deriving Repr, DecidableEq

/-- Job record allocated by POST /api/generate (main.py lines 75-83). -/
def initialJob (maxIterations : Nat) : JobRecord :=
  { status := "running", iteration := 0, max_iterations := maxIterations,
    phase := none, last_verdict := none, result := none, error := none }

/-- Effect of one event on the job record; agent-call events are not job
mutations. -/
def applyWrite (j : JobRecord) : Event → JobRecord
  | Event.jobIteration n => { j with iteration := n }
  | Event.jobPhase p => { j with phase := some p }
  | Event.jobLastVerdict v => { j with last_verdict := some v }
  | Event.jobStatus s => { j with status := s }
  | Event.jobResult r => { j with result := some r }
  | Event.jobError e => { j with error := some e }
  | Event.writerCall _ _ _ => j
  | Event.judgeCall _ _ _ => j

/-- Job record after a sequence of writes. -/
def applyWrites (j : JobRecord) (evs : List Event) : JobRecord :=
  evs.foldl applyWrite j

/-- run() in loop.py lines 32-54: the try block builds the agents and runs
_execute; any exception is caught, the job gets status "error" and a wrapped
message, and the exception is re-raised.  The try-block outcome is modelled as
an Except value; the error case carries the exception text and the job writes
already performed before the exception unwound. -/
def runLoop (body : Except (String × List Event)
    ((GenerateResponse ⊕ ErrorResponse) × List Event)) :
    Except String (GenerateResponse ⊕ ErrorResponse) × List Event :=
  match body with
  | Except.ok (r, evs) => (Except.ok r, evs)
  | Except.error (exc, evs) =>
      (Except.error exc,
       evs ++ [Event.jobStatus "error", Event.jobError ("Unexpected error: " ++ exc)])

/-- The ThreadPoolExecutor boundary of main.py line 85: run() is submitted to
the pool, and an exception re-raised by run() is captured by the Future and
never propagates into the hosting process, which keeps serving other jobs.
The worker reduces to the job writes it leaves behind; it is a total function,
so it yields a final write list for every body, raising never escapes. -/
def workerRun (body : Except (String × List Event)
    ((GenerateResponse ⊕ ErrorResponse) × List Event)) : List Event :=
  (runLoop body).2

/-- Python sep.join(items) (writer.py lines 114 and 135, judge.py line 106). -/
def joinSep (sep : String) : List String → String
  | [] => ""
  | [x] => x
  | x :: y :: xs => x ++ sep ++ joinSep sep (y :: xs)

/-- One bullet line per item, newline-joined, as the writer builds feedback
and issue lists. -/
def bulleted (items : List String) : String :=
  joinSep "\n" (items.map fun a => "- " ++ a)

/-- WriterAgent._build_plan_query (writer.py lines 112-123).  Python tests the
feedback argument for truthiness, so None and the empty list both take the
no-feedback branch. -/
def _build_plan_query (topic : String) (feedback : Option (List String)) : String :=
  match feedback with
  | some (a :: rest) =>
      "Article topic: " ++ topic ++ "\n\n" ++
      "The previous draft was rejected for these factual errors:\n" ++
      bulleted (a :: rest) ++ "\n\n" ++
      "What 1-2 searches will find the correct information to fix these issues?"
  | _ =>
      "Article topic: " ++ topic ++ "\n\n" ++
      "What 1-2 searches will give the most important current facts for this article?"

/-- Article structure rules from configuration (config.py lines 40-45). -/
structure ArticleRules where
  max_word_count : Nat
  max_paragraph_count : Nat
  required_sections : List String
  tone : String
deriving Repr, DecidableEq

/-- The rules block of the drafting prompt (writer.py lines 138-145). -/
def rulesText (rules : ArticleRules) : String :=
  "Article structure rules:\n" ++
  "- Maximum word count: " ++ toString rules.max_word_count ++ "\n" ++
  "- Maximum paragraph count: " ++ toString rules.max_paragraph_count ++ "\n" ++
  "- Required sections (in order): " ++ joinSep ", " rules.required_sections ++ "\n" ++
  "- Tone: " ++ rules.tone

/-- The feedback block of the drafting prompt (writer.py lines 133-136):
empty for None and for an empty list, a headed bullet list otherwise. -/
def feedbackTextOf (feedback : Option (List String)) : String :=
  match feedback with
  | some (a :: rest) =>
      "Feedback from the previous review:\n" ++ bulleted (a :: rest)
  | _ => ""

/-- Modelled from the spec: the writer prompt template lives in
config/writer_prompt.yml, which is not part of src/.  Per config.py lines
49-52 and spec section 6 it is a str.format template into which the topic and
the feedback block are injected.  A format template is modelled as a sequence
of literal pieces and the two placeholders. -/
inductive TemplatePiece where
  | lit (s : String)
  | topicSlot
  | feedbackSlot
deriving Repr, DecidableEq

/-- Python template.format(topic=..., feedback=...): every placeholder is
replaced by its argument, literals are kept. -/
def renderTemplate (tpl : List TemplatePiece) (topic fbText : String) : String :=
  match tpl with
  | [] => ""
  | TemplatePiece.lit s :: rest => s ++ renderTemplate rest topic fbText
  | TemplatePiece.topicSlot :: rest => topic ++ renderTemplate rest topic fbText
  | TemplatePiece.feedbackSlot :: rest => fbText ++ renderTemplate rest topic fbText

/-- A template with its feedback placeholders deleted, for stating that an
absent feedback block contributes nothing at all to the instruction. -/
def dropFeedbackSlots (tpl : List TemplatePiece) : List TemplatePiece :=
  tpl.filter fun p => p ≠ TemplatePiece.feedbackSlot

/-- WriterAgent._build_system_prompt (writer.py lines 130-155): the formatted
template, the research framing with the research text, and the rules block.
This exact string is what _write (writer.py lines 125-128) sends as the system
instruction of the final drafting completion. -/
def _build_system_prompt (tpl : List TemplatePiece) (rules : ArticleRules)
    (topic : String) (feedback : Option (List String)) (research : String) : String :=
  renderTemplate tpl topic (feedbackTextOf feedback) ++ "\n\n" ++
  "Research findings — use these as your sole factual foundation. " ++
  "Do not state facts not supported by this research:\n" ++ research ++ "\n\n" ++
  rulesText rules

/-- needle occurs contiguously inside hay. -/
def substr (needle hay : String) : Prop :=
  ∃ pre post : String, hay = pre ++ needle ++ post

/-- Constant duration stream for concrete runs. -/
def d0 : Nat → Int := fun _ => 0

/-- Concrete Writer stream: one distinct draft per call. -/
def draftStream : Nat → Option (List String) → String :=
  fun n _ => "draft " ++ toString n

/-- Concrete Judge stream that always fails with one annotation. -/
def judgeAlwaysFail : Nat → String → JudgeResult :=
  fun n _ => { verdict := "fail", annotations := ["issue " ++ toString n] }

/-- Concrete Judge stream that passes exactly at iteration k. -/
def judgePassAt (k : Nat) : Nat → String → JudgeResult :=
  fun n _ =>
    if n = k then { verdict := "pass", annotations := [] }
    else { verdict := "fail", annotations := ["issue " ++ toString n] }

/-- Concrete Judge stream: fail with zero annotations first, then pass. -/
def judgeEmptyFailThenPass : Nat → String → JudgeResult :=
  fun n _ =>
    if n = 1 then { verdict := "fail", annotations := [] }
    else { verdict := "pass", annotations := [] }

/-- Concrete Judge stream that always answers with the verdict PASS in upper
case, which is outside the accepted value. -/
def judgeUpperPass : Nat → String → JudgeResult :=
  fun _ _ => { verdict := "PASS", annotations := [] }

/-- Concrete writer template for witnesses. -/
def tplEx : List TemplatePiece :=
  [TemplatePiece.lit ("Write an article about "), TemplatePiece.topicSlot,
   TemplatePiece.lit ("\n"), TemplatePiece.feedbackSlot]

/-- Concrete article rules for witnesses. -/
def rulesEx : ArticleRules :=
  { max_word_count := 800, max_paragraph_count := 6,
    required_sections := ["Introduction", "Body", "Conclusion"],
    tone := "neutral" }

/-- Response of the one-iteration accepting run used in witnesses. -/
def acceptRespEx : GenerateResponse :=
  { article := "draft 1", iterations := 1, history := none }

/-- Response of the one-iteration accepting verbose run used in witnesses. -/
def verboseRespEx : GenerateResponse :=
  { article := "draft 1", iterations := 1,
    history := some [{ iteration := 1, writer_output := "draft 1", judge_verdict := "pass", judge_annotations := [] }] }

/-- Failure response of the two-iteration capped run used in witnesses. -/
def capErrEx : ErrorResponse :=
  { error := "Article did not pass after 2 iterations.", iterations := 2,
    history := [⟨1, "draft 1", "fail", ["issue 1"]⟩, ⟨2, "draft 2", "fail", ["issue 2"]⟩] }

/-- Writer call stream type: call index and feedback to draft. -/
abbrev WriterStream := Nat → Option (List String) → String

/-- Judge call stream type: call index and draft to verdict. -/
abbrev JudgeStream := Nat → String → JudgeResult

theorem str_nil_append (s : String) : "" ++ s = s := by
  cases s
  rfl

theorem substr_intro (n pre post : String) : substr n (pre ++ n ++ post) :=
  ⟨pre, post, rfl⟩

theorem substr_self (s : String) : substr s s :=
  ⟨"", "", by rw [String.append_empty, str_nil_append]⟩

theorem substr_append_left {n h : String} (t : String) (H : substr n h) :
    substr n (h ++ t) := by
  obtain ⟨p, q, rfl⟩ := H
  exact ⟨p, q ++ t, by simp only [String.append_assoc]⟩

theorem substr_append_right {n h : String} (t : String) (H : substr n h) :
    substr n (t ++ h) := by
  obtain ⟨p, q, rfl⟩ := H
  exact ⟨t ++ p, q, by simp only [String.append_assoc]⟩

theorem substr_trans {a b c : String} (H1 : substr a b) (H2 : substr b c) :
    substr a c := by
  obtain ⟨p, q, rfl⟩ := H1
  obtain ⟨r, s, rfl⟩ := H2
  exact ⟨r ++ p, q ++ s, by simp only [String.append_assoc]⟩

theorem substr_joinSep {s : String} (sep : String) :
    ∀ {l : List String}, s ∈ l → substr s (joinSep sep l)
  | [], h => absurd h (List.not_mem_nil s)
  | [x], h => by
      rcases List.mem_singleton.mp h with rfl
      exact substr_self s
  | x :: y :: ys, h => by
      rcases List.mem_cons.mp h with rfl | h'
      · exact substr_append_left _ (substr_append_left _ (substr_self s))
      · exact substr_append_right _ (substr_joinSep sep h')

theorem substr_bulleted {a : String} {items : List String} (h : a ∈ items) :
    substr a (bulleted items) := by
  have h1 : substr a ("- " ++ a) := ⟨"- ", "", by rw [String.append_empty]⟩
  exact substr_trans h1 (substr_joinSep "\n" (List.mem_map_of_mem _ h))

theorem substr_feedbackTextOf {a : String} {l : List String} (h : a ∈ l) :
    substr a (feedbackTextOf (some l)) := by
  match l, h with
  | x :: xs, h =>
      exact substr_append_right _ (substr_bulleted h)

theorem substr_renderTemplate {fbText : String} (topic : String) :
    ∀ {tpl : List TemplatePiece}, TemplatePiece.feedbackSlot ∈ tpl →
      substr fbText (renderTemplate tpl topic fbText)
  | [], h => absurd h (List.not_mem_nil _)
  | p :: rest, h => by
      rcases List.mem_cons.mp h with rfl | h'
      · exact substr_append_left _ (substr_self fbText)
      · match p with
        | TemplatePiece.lit s =>
            exact substr_append_right _ (substr_renderTemplate topic h')
        | TemplatePiece.topicSlot =>
            exact substr_append_right _ (substr_renderTemplate topic h')
        | TemplatePiece.feedbackSlot =>
            exact substr_append_left _ (substr_self fbText)

theorem renderTemplate_dropFeedbackSlots (topic : String) :
    ∀ tpl : List TemplatePiece,
      renderTemplate tpl topic "" = renderTemplate (dropFeedbackSlots tpl) topic ""
  | [] => rfl
  | TemplatePiece.lit s :: rest => by
      have h : dropFeedbackSlots (TemplatePiece.lit s :: rest) =
          TemplatePiece.lit s :: dropFeedbackSlots rest := by
        simp [dropFeedbackSlots, List.filter_cons]
      rw [h]
      show s ++ renderTemplate rest topic "" =
        s ++ renderTemplate (dropFeedbackSlots rest) topic ""
      rw [renderTemplate_dropFeedbackSlots topic rest]
  | TemplatePiece.topicSlot :: rest => by
      have h : dropFeedbackSlots (TemplatePiece.topicSlot :: rest) =
          TemplatePiece.topicSlot :: dropFeedbackSlots rest := by
        simp [dropFeedbackSlots, List.filter_cons]
      rw [h]
      show topic ++ renderTemplate rest topic "" =
        topic ++ renderTemplate (dropFeedbackSlots rest) topic ""
      rw [renderTemplate_dropFeedbackSlots topic rest]
  | TemplatePiece.feedbackSlot :: rest => by
      have h : dropFeedbackSlots (TemplatePiece.feedbackSlot :: rest) =
          dropFeedbackSlots rest := by
        simp [dropFeedbackSlots, List.filter_cons]
      rw [h]
      show "" ++ renderTemplate rest topic "" = _
      rw [str_nil_append, renderTemplate_dropFeedbackSlots topic rest]

@[simp]
theorem fbSeq_zero (writerF : WriterStream) (judgeF : JudgeStream)
    (n : Nat) (fb : Option (List String)) : fbSeq writerF judgeF n fb 0 = fb := rfl

@[simp]
theorem draftAtFrom_zero (writerF : WriterStream) (judgeF : JudgeStream)
    (n : Nat) (fb : Option (List String)) :
    draftAtFrom writerF judgeF n fb 0 = writerF n fb := rfl

@[simp]
theorem resultAtFrom_zero (writerF : WriterStream) (judgeF : JudgeStream)
    (n : Nat) (fb : Option (List String)) :
    resultAtFrom writerF judgeF n fb 0 = judgeF n (writerF n fb) := rfl

theorem fbSeq_shift (writerF : WriterStream) (judgeF : JudgeStream)
    (n : Nat) (fb : Option (List String)) :
    ∀ i, fbSeq writerF judgeF n fb (i + 1) =
      fbSeq writerF judgeF (n + 1) (fbSeq writerF judgeF n fb 1) i
  | 0 => rfl
  | i + 1 => by
      have h : n + (i + 1) = (n + 1) + i := by omega
      show some (judgeF (n + (i + 1))
          (writerF (n + (i + 1)) (fbSeq writerF judgeF n fb (i + 1)))).annotations =
        some (judgeF ((n + 1) + i) (writerF ((n + 1) + i)
          (fbSeq writerF judgeF (n + 1) (fbSeq writerF judgeF n fb 1) i))).annotations
      rw [fbSeq_shift writerF judgeF n fb i, h]

theorem draftAtFrom_shift (writerF : WriterStream) (judgeF : JudgeStream)
    (n : Nat) (fb : Option (List String)) (i : Nat) :
    draftAtFrom writerF judgeF n fb (i + 1) =
      draftAtFrom writerF judgeF (n + 1) (fbSeq writerF judgeF n fb 1) i := by
  have h : n + (i + 1) = (n + 1) + i := by omega
  unfold draftAtFrom
  rw [fbSeq_shift, h]

theorem resultAtFrom_shift (writerF : WriterStream) (judgeF : JudgeStream)
    (n : Nat) (fb : Option (List String)) (i : Nat) :
    resultAtFrom writerF judgeF n fb (i + 1) =
      resultAtFrom writerF judgeF (n + 1) (fbSeq writerF judgeF n fb 1) i := by
  have h : n + (i + 1) = (n + 1) + i := by omega
  unfold resultAtFrom
  rw [draftAtFrom_shift, h]

theorem feedbackAt_eq_fbSeq (writerF : WriterStream) (judgeF : JudgeStream) :
    ∀ i, feedbackAt writerF judgeF (i + 1) = fbSeq writerF judgeF 1 none i
  | 0 => rfl
  | i + 1 => by
      show some (judgeF (i + 1)
          (writerF (i + 1) (feedbackAt writerF judgeF (i + 1)))).annotations =
        some (judgeF (1 + i) (writerF (1 + i) (fbSeq writerF judgeF 1 none i))).annotations
      rw [feedbackAt_eq_fbSeq writerF judgeF i, Nat.add_comm 1 i]

theorem draftAt_eq_from (writerF : WriterStream) (judgeF : JudgeStream) (i : Nat) :
    draftAt writerF judgeF (i + 1) = draftAtFrom writerF judgeF 1 none i := by
  unfold draftAt draftAtFrom
  rw [feedbackAt_eq_fbSeq, Nat.add_comm 1 i]

theorem resultAt_eq_from (writerF : WriterStream) (judgeF : JudgeStream) (i : Nat) :
    resultAt writerF judgeF (i + 1) = resultAtFrom writerF judgeF 1 none i := by
  unfold resultAt resultAtFrom
  rw [draftAt_eq_from, Nat.add_comm 1 i]

theorem recsFrom_succ (writerF : WriterStream) (judgeF : JudgeStream)
    (durations : Nat → Int) (n : Nat) (fb : Option (List String)) (c : Nat) :
    recsFrom writerF judgeF durations n fb (c + 1) =
      mkIterationRecordLoop n (writerF n fb) (judgeF n (writerF n fb)).verdict
          (judgeF n (writerF n fb)).annotations (durations n) ::
        recsFrom writerF judgeF durations (n + 1) (fbSeq writerF judgeF n fb 1) c := by
  unfold recsFrom
  rw [List.range_succ_eq_map, List.map_cons, List.map_map]
  congr 1
  apply List.map_congr_left
  intro i _
  show mkIterationRecordLoop (n + (i + 1)) (draftAtFrom writerF judgeF n fb (i + 1))
      (resultAtFrom writerF judgeF n fb (i + 1)).verdict
      (resultAtFrom writerF judgeF n fb (i + 1)).annotations (durations (n + (i + 1))) = _
  rw [draftAtFrom_shift, resultAtFrom_shift, (by omega : n + (i + 1) = (n + 1) + i)]

theorem recsFrom_length (writerF : WriterStream) (judgeF : JudgeStream)
    (durations : Nat → Int) (n : Nat) (fb : Option (List String)) (c : Nat) :
    (recsFrom writerF judgeF durations n fb c).length = c := by
  unfold recsFrom
  rw [List.length_map, List.length_range]

theorem blocksJoin_succ (topic : String) (writerF : WriterStream) (judgeF : JudgeStream)
    (n : Nat) (fb : Option (List String)) (c : Nat) :
    blocksJoin topic writerF judgeF n fb (c + 1) =
      iterBlock topic writerF judgeF n fb ++
        blocksJoin topic writerF judgeF (n + 1) (fbSeq writerF judgeF n fb 1) c := by
  unfold blocksJoin
  rw [List.range_succ_eq_map, List.map_cons, List.map_map, List.flatten_cons]
  congr 1
  congr 1
  apply List.map_congr_left
  intro i _
  show iterBlock topic writerF judgeF (n + (i + 1)) (fbSeq writerF judgeF n fb (i + 1)) = _
  rw [fbSeq_shift, (by omega : n + (i + 1) = (n + 1) + i)]

theorem itersExecuted_all_fail (writerF : WriterStream) (judgeF : JudgeStream) :
    ∀ (fuel n : Nat) (fb : Option (List String)),
      (∀ i, i < fuel → (resultAtFrom writerF judgeF n fb i).verdict ≠ "pass") →
      itersExecuted writerF judgeF fuel n fb = fuel
  | 0, _, _, _ => rfl
  | fuel + 1, n, fb, H => by
      unfold itersExecuted
      rw [if_neg (H 0 (Nat.succ_pos _))]
      rw [itersExecuted_all_fail writerF judgeF fuel (n + 1) (fbSeq writerF judgeF n fb 1)
        (fun i hi => by
          rw [← resultAtFrom_shift]
          exact H (i + 1) (by omega))]
      omega

theorem itersExecuted_first_pass (writerF : WriterStream) (judgeF : JudgeStream) :
    ∀ (fuel j n : Nat) (fb : Option (List String)), j < fuel →
      (∀ i, i < j → (resultAtFrom writerF judgeF n fb i).verdict ≠ "pass") →
      (resultAtFrom writerF judgeF n fb j).verdict = "pass" →
      itersExecuted writerF judgeF fuel n fb = j + 1
  | 0, j, _, _, hj, _, _ => absurd hj (Nat.not_lt_zero j)
  | fuel + 1, 0, n, fb, _, _, Hpass => by
      unfold itersExecuted
      rw [if_pos Hpass]
  | fuel + 1, j + 1, n, fb, hj, Hpre, Hpass => by
      unfold itersExecuted
      rw [if_neg (Hpre 0 (Nat.succ_pos _))]
      rw [itersExecuted_first_pass writerF judgeF fuel j (n + 1)
        (fbSeq writerF judgeF n fb 1) (by omega)
        (fun i hi => by
          rw [← resultAtFrom_shift]
          exact Hpre (i + 1) (by omega))
        (by rw [← resultAtFrom_shift]; exact Hpass)]
      omega

theorem loopGo_cap (topic : String) (verbose : Bool) (maxIterations : Nat)
    (writerF : WriterStream) (judgeF : JudgeStream) (durations : Nat → Int) :
    ∀ (fuel n : Nat) (fb : Option (List String)) (hist : List IterationRecord),
      (∀ i, i < fuel → (resultAtFrom writerF judgeF n fb i).verdict ≠ "pass") →
      (loopGo topic verbose maxIterations writerF judgeF durations n fuel fb hist).1 =
        Sum.inr
          { error := "Article did not pass after " ++ toString maxIterations ++ " iterations."
            iterations := maxIterations
            history := hist ++ recsFrom writerF judgeF durations n fb fuel }
  | 0, n, fb, hist, _ => by
      simp [loopGo, recsFrom]
  | fuel + 1, n, fb, hist, H => by
      have h0 : (judgeF n (writerF n fb)).verdict ≠ "pass" := H 0 (Nat.succ_pos _)
      have hfb : some (judgeF n (writerF n fb)).annotations = fbSeq writerF judgeF n fb 1 :=
        rfl
      simp only [loopGo]
      rw [if_neg h0, hfb]
      rw [loopGo_cap topic verbose maxIterations writerF judgeF durations fuel (n + 1)
        (fbSeq writerF judgeF n fb 1) _
        (fun i hi => by
          rw [← resultAtFrom_shift]
          exact H (i + 1) (by omega))]
      rw [recsFrom_succ]
      simp

theorem loopGo_accept (topic : String) (verbose : Bool) (maxIterations : Nat)
    (writerF : WriterStream) (judgeF : JudgeStream) (durations : Nat → Int) :
    ∀ (fuel j n : Nat) (fb : Option (List String)) (hist : List IterationRecord),
      j < fuel →
      (∀ i, i < j → (resultAtFrom writerF judgeF n fb i).verdict ≠ "pass") →
      (resultAtFrom writerF judgeF n fb j).verdict = "pass" →
      (loopGo topic verbose maxIterations writerF judgeF durations n fuel fb hist).1 =
        Sum.inl
          { article := draftAtFrom writerF judgeF n fb j
            iterations := n + j
            history := if verbose then
                some (hist ++ recsFrom writerF judgeF durations n fb (j + 1))
              else none }
  | 0, j, _, _, _, hj, _, _ => absurd hj (Nat.not_lt_zero j)
  | fuel + 1, 0, n, fb, hist, _, _, Hpass => by
      rw [resultAtFrom_zero] at Hpass
      simp only [loopGo]
      rw [if_pos Hpass]
      have h1 : recsFrom writerF judgeF durations n fb 1 =
          [mkIterationRecordLoop n (writerF n fb) (judgeF n (writerF n fb)).verdict
            (judgeF n (writerF n fb)).annotations (durations n)] := by
        unfold recsFrom
        simp [List.range_succ]
      simp [h1]
  | fuel + 1, j + 1, n, fb, hist, hj, Hpre, Hpass => by
      have h0 : (judgeF n (writerF n fb)).verdict ≠ "pass" := by
        rw [← resultAtFrom_zero writerF judgeF n fb]
        exact Hpre 0 (Nat.succ_pos _)
      have hfb : some (judgeF n (writerF n fb)).annotations = fbSeq writerF judgeF n fb 1 :=
        rfl
      simp only [loopGo]
      rw [if_neg h0, hfb]
      rw [loopGo_accept topic verbose maxIterations writerF judgeF durations fuel j (n + 1)
        (fbSeq writerF judgeF n fb 1) _ (by omega)
        (fun i hi => by
          rw [← resultAtFrom_shift]
          exact Hpre (i + 1) (by omega))
        (by rw [← resultAtFrom_shift]; exact Hpass)]
      rw [← draftAtFrom_shift, (by omega : n + 1 + j = n + (j + 1))]
      rw [recsFrom_succ writerF judgeF durations n fb (j + 1)]
      simp

theorem loopGo_inr (topic : String) (verbose : Bool) (maxIterations : Nat)
    (writerF : WriterStream) (judgeF : JudgeStream) (durations : Nat → Int) :
    ∀ (fuel n : Nat) (fb : Option (List String)) (hist : List IterationRecord)
      (e : ErrorResponse),
      (loopGo topic verbose maxIterations writerF judgeF durations n fuel fb hist).1 =
        Sum.inr e →
      e = { error := "Article did not pass after " ++ toString maxIterations ++ " iterations."
            iterations := maxIterations
            history := hist ++ recsFrom writerF judgeF durations n fb fuel } ∧
      ∀ i, i < fuel → (resultAtFrom writerF judgeF n fb i).verdict ≠ "pass"
  | 0, n, fb, hist, e, H => by
      simp only [loopGo, Sum.inr.injEq] at H
      refine ⟨?_, fun i hi => absurd hi (Nat.not_lt_zero i)⟩
      rw [← H]
      simp [recsFrom]
  | fuel + 1, n, fb, hist, e, H => by
      by_cases hp : (judgeF n (writerF n fb)).verdict = "pass"
      · rw [loopGo, if_pos hp] at H
        exact absurd H (by simp)
      · rw [loopGo, if_neg hp] at H
        obtain ⟨he, hfail⟩ := loopGo_inr topic verbose maxIterations writerF judgeF durations
          fuel (n + 1) (fbSeq writerF judgeF n fb 1)
          (hist ++ [mkIterationRecordLoop n (writerF n fb) (judgeF n (writerF n fb)).verdict
            (judgeF n (writerF n fb)).annotations (durations n)]) e H
        constructor
        · rw [he, recsFrom_succ writerF judgeF durations n fb fuel]
          simp
        · intro i hi
          match i with
          | 0 =>
              rw [resultAtFrom_zero]
              exact hp
          | i + 1 =>
              rw [resultAtFrom_shift]
              exact hfail i (by omega)

theorem loopGo_inl (topic : String) (verbose : Bool) (maxIterations : Nat)
    (writerF : WriterStream) (judgeF : JudgeStream) (durations : Nat → Int) :
    ∀ (fuel n : Nat) (fb : Option (List String)) (hist : List IterationRecord)
      (r : GenerateResponse),
      (loopGo topic verbose maxIterations writerF judgeF durations n fuel fb hist).1 =
        Sum.inl r →
      ∃ j, j < fuel ∧
        (∀ i, i < j → (resultAtFrom writerF judgeF n fb i).verdict ≠ "pass") ∧
        (resultAtFrom writerF judgeF n fb j).verdict = "pass" ∧
        r.iterations = n + j
  | 0, n, fb, hist, r, H => by
      simp [loopGo] at H
  | fuel + 1, n, fb, hist, r, H => by
      by_cases hp : (judgeF n (writerF n fb)).verdict = "pass"
      · rw [loopGo, if_pos hp] at H
        simp only [Sum.inl.injEq] at H
        refine ⟨0, Nat.succ_pos _, fun i hi => absurd hi (Nat.not_lt_zero i), ?_, ?_⟩
        · rw [resultAtFrom_zero]
          exact hp
        · rw [← H]
          rfl
      · rw [loopGo, if_neg hp] at H
        obtain ⟨j, hj, hpre, hpass, hiter⟩ :=
          loopGo_inl topic verbose maxIterations writerF judgeF durations
            fuel (n + 1) (fbSeq writerF judgeF n fb 1)
            (hist ++ [mkIterationRecordLoop n (writerF n fb) (judgeF n (writerF n fb)).verdict
              (judgeF n (writerF n fb)).annotations (durations n)]) r H
        refine ⟨j + 1, by omega, ?_, ?_, ?_⟩
        · intro i hi
          match i with
          | 0 =>
              rw [resultAtFrom_zero]
              exact hp
          | i + 1 =>
              rw [resultAtFrom_shift]
              exact hpre i (by omega)
        · rw [resultAtFrom_shift]
          exact hpass
        · rw [hiter]
          omega

theorem loopGo_events (topic : String) (verbose : Bool) (maxIterations : Nat)
    (writerF : WriterStream) (judgeF : JudgeStream) (durations : Nat → Int) :
    ∀ (fuel n : Nat) (fb : Option (List String)) (hist : List IterationRecord),
      (loopGo topic verbose maxIterations writerF judgeF durations n fuel fb hist).2 =
        blocksJoin topic writerF judgeF n fb (itersExecuted writerF judgeF fuel n fb) ++
          (match (loopGo topic verbose maxIterations writerF judgeF durations n fuel fb hist).1
           with
           | Sum.inl r => [Event.jobStatus "done", Event.jobResult (Sum.inl r)]
           | Sum.inr e => [Event.jobStatus "error", Event.jobError e.error,
               Event.jobResult (Sum.inr e)])
  | 0, n, fb, hist => by
      rfl
  | fuel + 1, n, fb, hist => by
      by_cases hp : (judgeF n (writerF n fb)).verdict = "pass"
      · have hp0 : (resultAtFrom writerF judgeF n fb 0).verdict = "pass" := by
          rw [resultAtFrom_zero]
          exact hp
        simp only [loopGo]
        rw [if_pos hp, itersExecuted, if_pos hp0, blocksJoin_succ]
        simp [iterBlock, blocksJoin]
      · have hp0 : ¬ (resultAtFrom writerF judgeF n fb 0).verdict = "pass" := by
          rw [resultAtFrom_zero]
          exact hp
        have hfb : some (judgeF n (writerF n fb)).annotations =
            fbSeq writerF judgeF n fb 1 := rfl
        simp only [loopGo]
        rw [if_neg hp, itersExecuted, if_neg hp0, hfb]
        rw [loopGo_events topic verbose maxIterations writerF judgeF durations fuel (n + 1)
          (fbSeq writerF judgeF n fb 1) _]
        rw [(by omega : 1 + itersExecuted writerF judgeF fuel (n + 1)
          (fbSeq writerF judgeF n fb 1) =
          itersExecuted writerF judgeF fuel (n + 1) (fbSeq writerF judgeF n fb 1) + 1)]
        rw [blocksJoin_succ]
        simp [iterBlock]

theorem writerFeedbacks_iterBlock (topic : String) (writerF : WriterStream)
    (judgeF : JudgeStream) (i : Nat) (fb : Option (List String)) :
    writerFeedbacks (iterBlock topic writerF judgeF i fb) = [fb] := rfl

theorem writerFeedbacks_blocksJoin (topic : String) (writerF : WriterStream)
    (judgeF : JudgeStream) :
    ∀ (c n : Nat) (fb : Option (List String)),
      writerFeedbacks (blocksJoin topic writerF judgeF n fb c) =
        (List.range c).map (fbSeq writerF judgeF n fb)
  | 0, _, _ => rfl
  | c + 1, n, fb => by
      rw [blocksJoin_succ]
      unfold writerFeedbacks
      rw [List.filterMap_append]
      show writerFeedbacks (iterBlock topic writerF judgeF n fb) ++
        writerFeedbacks (blocksJoin topic writerF judgeF (n + 1)
          (fbSeq writerF judgeF n fb 1) c) = _
      rw [writerFeedbacks_iterBlock,
        writerFeedbacks_blocksJoin topic writerF judgeF c (n + 1) (fbSeq writerF judgeF n fb 1),
        List.range_succ_eq_map, List.map_cons, List.map_map, List.singleton_append]
      congr 1
      apply List.map_congr_left
      intro i _
      show fbSeq writerF judgeF (n + 1) (fbSeq writerF judgeF n fb 1) i =
        fbSeq writerF judgeF n fb (Nat.succ i)
      rw [← fbSeq_shift]

theorem phaseWrites_blocksJoin (topic : String) (writerF : WriterStream)
    (judgeF : JudgeStream) :
    ∀ (c n : Nat) (fb : Option (List String)),
      phaseWrites (blocksJoin topic writerF judgeF n fb c) =
        (List.replicate c ["writing", "judging"]).flatten
  | 0, _, _ => rfl
  | c + 1, n, fb => by
      rw [blocksJoin_succ]
      unfold phaseWrites
      rw [List.filterMap_append]
      show phaseWrites (iterBlock topic writerF judgeF n fb) ++
        phaseWrites (blocksJoin topic writerF judgeF (n + 1)
          (fbSeq writerF judgeF n fb 1) c) = _
      rw [phaseWrites_blocksJoin topic writerF judgeF c (n + 1) (fbSeq writerF judgeF n fb 1),
        List.replicate_succ, List.flatten_cons]
      rfl

theorem iterationWrites_blocksJoin (topic : String) (writerF : WriterStream)
    (judgeF : JudgeStream) :
    ∀ (c n : Nat) (fb : Option (List String)),
      iterationWrites (blocksJoin topic writerF judgeF n fb c) = List.range' n c
  | 0, _, _ => rfl
  | c + 1, n, fb => by
      rw [blocksJoin_succ]
      unfold iterationWrites
      rw [List.filterMap_append]
      show iterationWrites (iterBlock topic writerF judgeF n fb) ++
        iterationWrites (blocksJoin topic writerF judgeF (n + 1)
          (fbSeq writerF judgeF n fb 1) c) = _
      rw [iterationWrites_blocksJoin topic writerF judgeF c (n + 1) (fbSeq writerF judgeF n fb 1),
        List.range'_succ]
      rfl

theorem chain_le_range' : ∀ (c n : Nat), List.Chain' (· ≤ ·) (List.range' n c)
  | 0, _ => List.chain'_nil
  | 1, n => by
      rw [List.range'_succ]
      exact List.chain'_singleton n
  | c + 2, n => by
      rw [List.range'_succ, List.range'_succ]
      refine List.Chain'.cons (by omega) ?_
      rw [← List.range'_succ]
      exact chain_le_range' (c + 1) (n + 1)

theorem applyWrites_append (j : JobRecord) (l1 l2 : List Event) :
    applyWrites j (l1 ++ l2) = applyWrites (applyWrites j l1) l2 :=
  List.foldl_append applyWrite j l1 l2

theorem applyWrites_iterBlock (topic : String) (writerF : WriterStream)
    (judgeF : JudgeStream) (i : Nat) (fb : Option (List String)) (j : JobRecord) :
    applyWrites j (iterBlock topic writerF judgeF i fb) =
      { j with
        iteration := i,
        phase := some "judging",
        last_verdict := some (judgeF i (writerF i fb)).verdict } := rfl

theorem applyWrites_blocksJoin_preserves (topic : String) (writerF : WriterStream)
    (judgeF : JudgeStream) :
    ∀ (c n : Nat) (fb : Option (List String)) (j : JobRecord),
      (applyWrites j (blocksJoin topic writerF judgeF n fb c)).status = j.status ∧
      (applyWrites j (blocksJoin topic writerF judgeF n fb c)).result = j.result ∧
      (applyWrites j (blocksJoin topic writerF judgeF n fb c)).error = j.error
  | 0, _, _, _ => ⟨rfl, rfl, rfl⟩
  | c + 1, n, fb, j => by
      rw [blocksJoin_succ, applyWrites_append, applyWrites_iterBlock]
      exact applyWrites_blocksJoin_preserves topic writerF judgeF c (n + 1) (fbSeq writerF judgeF n fb 1) _

theorem writerFeedbacks_append (l1 l2 : List Event) :
    writerFeedbacks (l1 ++ l2) = writerFeedbacks l1 ++ writerFeedbacks l2 :=
  List.filterMap_append l1 l2 writerFeedbackOf

theorem phaseWrites_append (l1 l2 : List Event) :
    phaseWrites (l1 ++ l2) = phaseWrites l1 ++ phaseWrites l2 :=
  List.filterMap_append l1 l2 phaseOf

theorem iterationWrites_append (l1 l2 : List Event) :
    iterationWrites (l1 ++ l2) = iterationWrites l1 ++ iterationWrites l2 :=
  List.filterMap_append l1 l2 iterWriteOf

theorem itersExecuted_pos (writerF : WriterStream) (judgeF : JudgeStream)
    (fuel n : Nat) (fb : Option (List String)) (h : 0 < fuel) :
    0 < itersExecuted writerF judgeF fuel n fb := by
  match fuel, h with
  | fuel + 1, _ =>
      unfold itersExecuted
      split
      · omega
      · omega

theorem writerFeedbacks_execute (topic : String) (verbose : Bool) (maxIterations : Nat)
    (writerF : WriterStream) (judgeF : JudgeStream) (durations : Nat → Int) :
    writerFeedbacks (_execute topic verbose maxIterations writerF judgeF durations).2 =
      (List.range (itersExecuted writerF judgeF maxIterations 1 none)).map
        (fbSeq writerF judgeF 1 none) := by
  unfold _execute
  rw [loopGo_events, writerFeedbacks_append, writerFeedbacks_blocksJoin]
  have htail : writerFeedbacks
      (match (loopGo topic verbose maxIterations writerF judgeF durations
        1 maxIterations none []).1 with
       | Sum.inl r => [Event.jobStatus "done", Event.jobResult (Sum.inl r)]
       | Sum.inr e => [Event.jobStatus "error", Event.jobError e.error,
           Event.jobResult (Sum.inr e)]) = [] := by
    cases (loopGo topic verbose maxIterations writerF judgeF durations
      1 maxIterations none []).1 <;> rfl
  rw [htail, List.append_nil]

theorem writerFeedbacks_execute_get (topic : String) (verbose : Bool) (maxIterations : Nat)
    (writerF : WriterStream) (judgeF : JudgeStream) (durations : Nat → Int)
    (i : Nat) (fb : Option (List String))
    (h : (writerFeedbacks
      (_execute topic verbose maxIterations writerF judgeF durations).2)[i]? = some fb) :
    fb = feedbackAt writerF judgeF (i + 1) := by
  rw [writerFeedbacks_execute, List.getElem?_map] at h
  have hlt : i < itersExecuted writerF judgeF maxIterations 1 none := by
    by_contra hc
    rw [List.getElem?_eq_none (by simpa using Nat.le_of_not_lt hc)] at h
    simp at h
  rw [List.getElem?_range hlt] at h
  simp only [Option.map_some'] at h
  rw [feedbackAt_eq_fbSeq]
  injection h with h'
  exact h'.symm

/-- C1: in a run where the Judge fails every draft, _execute runs exactly
max_iterations iterations (one Writer call per iteration) and returns an
ErrorResponse whose iterations field is max_iterations, whose history has
length max_iterations, and whose error text contains the cap value. -/
theorem loop_cap_invariant (topic : String) (verbose : Bool) (maxIterations : Nat)
    (writerF : WriterStream) (judgeF : JudgeStream) (durations : Nat → Int)
    (Hfail : ∀ i s, (judgeF i s).verdict ≠ "pass") :
    ∃ e : ErrorResponse,
      (_execute topic verbose maxIterations writerF judgeF durations).1 = Sum.inr e ∧
      e.iterations = maxIterations ∧
      e.history.length = maxIterations ∧
      substr (toString maxIterations) e.error ∧
      (writerFeedbacks
        (_execute topic verbose maxIterations writerF judgeF durations).2).length =
        maxIterations := by
  have hall : ∀ i, i < maxIterations →
      (resultAtFrom writerF judgeF 1 none i).verdict ≠ "pass" := fun i _ => Hfail _ _
  have hcap := loopGo_cap topic verbose maxIterations writerF judgeF durations
    maxIterations 1 none [] hall
  have hiters : itersExecuted writerF judgeF maxIterations 1 none = maxIterations :=
    itersExecuted_all_fail writerF judgeF maxIterations 1 none hall
  refine ⟨_, hcap, rfl, ?_, ?_, ?_⟩
  · show ([] ++ recsFrom writerF judgeF durations 1 none maxIterations).length =
      maxIterations
    rw [List.nil_append, recsFrom_length]
  · exact ⟨"Article did not pass after ", " iterations.", rfl⟩
  · rw [writerFeedbacks_execute, hiters, List.length_map, List.length_range]

/-- C1 witness: with a judge that always fails and cap 2, the run caps. -/
theorem loop_cap_invariant_witness :
    ∃ e : ErrorResponse,
      (_execute ("t") false 2 draftStream judgeAlwaysFail d0).1 = Sum.inr e ∧
      e.iterations = 2 ∧
      e.history.length = 2 ∧
      substr (toString 2) e.error ∧
      (writerFeedbacks (_execute ("t") false 2 draftStream judgeAlwaysFail d0).2).length = 2 :=
  loop_cap_invariant ("t") false 2 draftStream judgeAlwaysFail d0
    (fun i s => by intro h; simp [judgeAlwaysFail] at h)

/-- C2: if the Judge passes first at iteration k with 1 ≤ k ≤ max_iterations,
_execute returns a GenerateResponse with iterations = k whose article is
exactly the draft the Writer produced on its k-th call. -/
theorem loop_early_accept (topic : String) (verbose : Bool) (maxIterations : Nat)
    (writerF : WriterStream) (judgeF : JudgeStream) (durations : Nat → Int) (k : Nat)
    (hk1 : 1 ≤ k) (hk2 : k ≤ maxIterations)
    (Hpass : (resultAt writerF judgeF k).verdict = "pass")
    (Hpre : ∀ i, i < k → 1 ≤ i → (resultAt writerF judgeF i).verdict ≠ "pass") :
    ∃ r : GenerateResponse,
      (_execute topic verbose maxIterations writerF judgeF durations).1 = Sum.inl r ∧
      r.iterations = k ∧
      r.article = draftAt writerF judgeF k := by
  obtain ⟨j, rfl⟩ : ∃ j, k = j + 1 := ⟨k - 1, by omega⟩
  unfold _execute
  have hacc := loopGo_accept topic verbose maxIterations writerF judgeF durations
    maxIterations j 1 none [] (by omega)
    (fun i hi => by
      rw [← resultAt_eq_from]
      exact Hpre (i + 1) (by omega) (by omega))
    (by rw [← resultAt_eq_from]; exact Hpass)
  refine ⟨_, hacc, ?_, ?_⟩
  · show 1 + j = j + 1
    omega
  · show draftAtFrom writerF judgeF 1 none j = draftAt writerF judgeF (j + 1)
    rw [draftAt_eq_from]

/-- C2 witness: judge passes at iteration 2 of 3; the article is the second
draft. -/
theorem loop_early_accept_witness :
    ∃ r : GenerateResponse,
      (_execute ("t") false 3 draftStream (judgePassAt 2) d0).1 = Sum.inl r ∧
      r.iterations = 2 ∧
      r.article = draftAt draftStream (judgePassAt 2) 2 :=
  loop_early_accept ("t") false 3 draftStream (judgePassAt 2) d0 2
    (by decide) (by decide) (by decide)
    (fun i h1 h2 => by
      interval_cases i
      decide)

/-- C3: the first Writer call of a run receives no feedback, and every later
Writer call receives exactly the annotation list the Judge returned on the
previous iteration — a full replacement, never an accumulation. -/
theorem loop_feedback_threading (topic : String) (verbose : Bool) (maxIterations : Nat)
    (writerF : WriterStream) (judgeF : JudgeStream) (durations : Nat → Int) :
    (0 < maxIterations →
      (writerFeedbacks
        (_execute topic verbose maxIterations writerF judgeF durations).2)[0]? =
        some none) ∧
    ∀ i fb,
      (writerFeedbacks
        (_execute topic verbose maxIterations writerF judgeF durations).2)[i + 1]? =
        some fb →
      fb = some (resultAt writerF judgeF (i + 1)).annotations := by
  constructor
  · intro hpos
    rw [writerFeedbacks_execute, List.getElem?_map,
      List.getElem?_range (itersExecuted_pos writerF judgeF maxIterations 1 none hpos)]
    rfl
  · intro i fb h
    have hfb := writerFeedbacks_execute_get topic verbose maxIterations writerF judgeF
      durations (i + 1) fb h
    rw [hfb]
    rfl

/-- C3 witness: with cap 3 and a judge passing only at iteration 3, the first
call has no feedback and the second call carries iteration 1's annotations. -/
theorem loop_feedback_threading_witness :
    (writerFeedbacks (_execute ("t") false 3 draftStream (judgePassAt 3) d0).2)[0]? =
      some none ∧
    some ["issue 1"] = some (resultAt draftStream (judgePassAt 3) 1).annotations :=
  ⟨(loop_feedback_threading ("t") false 3 draftStream (judgePassAt 3) d0).1 (by decide),
   (loop_feedback_threading ("t") false 3 draftStream (judgePassAt 3) d0).2 0
     (some ["issue 1"]) (by decide)⟩

/-- C5: on a Success the history field is populated exactly when verbosity was
requested; on a Failure the history is always present and complete, holding
one record per executed iteration, i.e. max_iterations of them. -/
theorem history_verbosity (topic : String) (verbose : Bool) (maxIterations : Nat)
    (writerF : WriterStream) (judgeF : JudgeStream) (durations : Nat → Int) :
    (∀ r : GenerateResponse,
      (_execute topic verbose maxIterations writerF judgeF durations).1 = Sum.inl r →
      r.history.isSome = verbose) ∧
    (∀ e : ErrorResponse,
      (_execute topic verbose maxIterations writerF judgeF durations).1 = Sum.inr e →
      e.history.length = maxIterations) := by
  constructor
  · intro r h
    unfold _execute at h
    obtain ⟨j, hj, hpre, hpass, _⟩ :=
      loopGo_inl topic verbose maxIterations writerF judgeF durations
        maxIterations 1 none [] r h
    have hfull := loopGo_accept topic verbose maxIterations writerF judgeF durations
      maxIterations j 1 none [] hj hpre hpass
    rw [h] at hfull
    have hr := Sum.inl.inj hfull
    rw [hr]
    cases verbose <;> simp
  · intro e h
    unfold _execute at h
    obtain ⟨he, _⟩ :=
      loopGo_inr topic verbose maxIterations writerF judgeF durations
        maxIterations 1 none [] e h
    rw [he]
    show ([] ++ recsFrom writerF judgeF durations 1 none maxIterations).length =
      maxIterations
    rw [List.nil_append, recsFrom_length]

/-- C5 witness: a verbose accepting run has a populated history, and a capped
run of 2 iterations has a 2-entry history. -/
theorem history_verbosity_witness :
    verboseRespEx.history.isSome = true ∧ capErrEx.history.length = 2 :=
  ⟨(history_verbosity ("t") true 1 draftStream (judgePassAt 1) d0).1 verboseRespEx
      (by decide),
   (history_verbosity ("t") false 2 draftStream judgeAlwaysFail d0).2 capErrEx
      (by decide)⟩

/-- C4: the job record reaches the documented terminal states: status done
with the serialised Success on acceptance; status error with the failure
reason and the serialised Failure on cap exhaustion; and on an exception in
the run, status error with a wrapped message, the exception being absorbed at
the worker-pool boundary (workerRun is a total function on erroring bodies, so
the hosting process is never taken down). -/
theorem job_terminal_states (topic : String) (verbose : Bool) (maxIterations : Nat)
    (writerF : WriterStream) (judgeF : JudgeStream) (durations : Nat → Int) :
    (∀ r : GenerateResponse,
      (_execute topic verbose maxIterations writerF judgeF durations).1 = Sum.inl r →
      (applyWrites (initialJob maxIterations)
        (_execute topic verbose maxIterations writerF judgeF durations).2).status =
          "done" ∧
      (applyWrites (initialJob maxIterations)
        (_execute topic verbose maxIterations writerF judgeF durations).2).result =
          some (Sum.inl r)) ∧
    (∀ e : ErrorResponse,
      (_execute topic verbose maxIterations writerF judgeF durations).1 = Sum.inr e →
      (applyWrites (initialJob maxIterations)
        (_execute topic verbose maxIterations writerF judgeF durations).2).status =
          "error" ∧
      (applyWrites (initialJob maxIterations)
        (_execute topic verbose maxIterations writerF judgeF durations).2).error =
          some e.error ∧
      (applyWrites (initialJob maxIterations)
        (_execute topic verbose maxIterations writerF judgeF durations).2).result =
          some (Sum.inr e)) ∧
    (∀ (exc : String) (evs : List Event),
      (applyWrites (initialJob maxIterations)
        (workerRun (Except.error (exc, evs)))).status = "error" ∧
      (applyWrites (initialJob maxIterations)
        (workerRun (Except.error (exc, evs)))).error =
        some ("Unexpected error: " ++ exc)) := by
  refine ⟨?_, ?_, ?_⟩
  · intro r h
    unfold _execute at h ⊢
    rw [loopGo_events, h, applyWrites_append]
    exact ⟨rfl, rfl⟩
  · intro e h
    unfold _execute at h ⊢
    rw [loopGo_events, h, applyWrites_append]
    exact ⟨rfl, rfl, rfl⟩
  · intro exc evs
    unfold workerRun runLoop
    rw [applyWrites_append]
    exact ⟨rfl, rfl⟩

/-- C4 witness: concrete accepting, capped, and raising runs reach the three
terminal job states. -/
theorem job_terminal_states_witness :
    (applyWrites (initialJob 1)
      (_execute ("t") false 1 draftStream (judgePassAt 1) d0).2).status = "done" ∧
    (applyWrites (initialJob 2)
      (_execute ("t") false 2 draftStream judgeAlwaysFail d0).2).status = "error" ∧
    (applyWrites (initialJob 2)
      (workerRun (Except.error (("boom"), [])))).error =
      some ("Unexpected error: " ++ "boom") :=
  ⟨((job_terminal_states ("t") false 1 draftStream (judgePassAt 1) d0).1 acceptRespEx
      (by decide)).1,
   (((job_terminal_states ("t") false 2 draftStream judgeAlwaysFail d0).2.1 capErrEx
      (by decide))).1,
   ((job_terminal_states ("t") false 2 draftStream judgeAlwaysFail d0).2.2 ("boom") []).2⟩

/-- C6: the job-visible trace decomposes into per-iteration blocks — each one
writing the iteration number and phase writing before the Writer call, phase
judging before the Judge call, and the latest verdict after it — followed only
by terminal writes that touch neither phase, iteration, nor the agents; hence
the phase writes are exactly writing, judging repeated once per executed
iteration, and the iteration writes are 1, 2, ... in order, monotonically
non-decreasing. -/
theorem job_phase_order (topic : String) (verbose : Bool) (maxIterations : Nat)
    (writerF : WriterStream) (judgeF : JudgeStream) (durations : Nat → Int) :
    ∃ tail : List Event,
      (_execute topic verbose maxIterations writerF judgeF durations).2 =
        blocksJoin topic writerF judgeF 1 none
          (itersExecuted writerF judgeF maxIterations 1 none) ++ tail ∧
      (∀ ev ∈ tail, phaseOf ev = none ∧ iterWriteOf ev = none ∧
        writerFeedbackOf ev = none ∧ judgeCallOf ev = none) ∧
      phaseWrites (_execute topic verbose maxIterations writerF judgeF durations).2 =
        (List.replicate (itersExecuted writerF judgeF maxIterations 1 none)
          ["writing", "judging"]).flatten ∧
      iterationWrites (_execute topic verbose maxIterations writerF judgeF durations).2 =
        List.range' 1 (itersExecuted writerF judgeF maxIterations 1 none) ∧
      List.Chain' (· ≤ ·)
        (iterationWrites
          (_execute topic verbose maxIterations writerF judgeF durations).2) := by
  have hphasetail : phaseWrites
      (match (loopGo topic verbose maxIterations writerF judgeF durations
        1 maxIterations none []).1 with
       | Sum.inl r => [Event.jobStatus "done", Event.jobResult (Sum.inl r)]
       | Sum.inr e => [Event.jobStatus "error", Event.jobError e.error,
           Event.jobResult (Sum.inr e)]) = [] := by
    cases (loopGo topic verbose maxIterations writerF judgeF durations
      1 maxIterations none []).1 <;> rfl
  have hitertail : iterationWrites
      (match (loopGo topic verbose maxIterations writerF judgeF durations
        1 maxIterations none []).1 with
       | Sum.inl r => [Event.jobStatus "done", Event.jobResult (Sum.inl r)]
       | Sum.inr e => [Event.jobStatus "error", Event.jobError e.error,
           Event.jobResult (Sum.inr e)]) = [] := by
    cases (loopGo topic verbose maxIterations writerF judgeF durations
      1 maxIterations none []).1 <;> rfl
  have hiterw : iterationWrites
      (_execute topic verbose maxIterations writerF judgeF durations).2 =
      List.range' 1 (itersExecuted writerF judgeF maxIterations 1 none) := by
    unfold _execute
    rw [loopGo_events, iterationWrites_append, iterationWrites_blocksJoin, hitertail,
      List.append_nil]
  refine ⟨(match (loopGo topic verbose maxIterations writerF judgeF durations
      1 maxIterations none []).1 with
     | Sum.inl r => [Event.jobStatus "done", Event.jobResult (Sum.inl r)]
     | Sum.inr e => [Event.jobStatus "error", Event.jobError e.error,
         Event.jobResult (Sum.inr e)]), ?_, ?_, ?_, hiterw, ?_⟩
  · unfold _execute
    exact loopGo_events topic verbose maxIterations writerF judgeF durations
      maxIterations 1 none []
  · cases (loopGo topic verbose maxIterations writerF judgeF durations
      1 maxIterations none []).1 with
    | inl r =>
        intro ev hev
        simp only [List.mem_cons, List.not_mem_nil, or_false] at hev
        rcases hev with rfl | rfl
        · exact ⟨rfl, rfl, rfl, rfl⟩
        · exact ⟨rfl, rfl, rfl, rfl⟩
    | inr e =>
        intro ev hev
        simp only [List.mem_cons, List.not_mem_nil, or_false] at hev
        rcases hev with rfl | rfl | rfl
        · exact ⟨rfl, rfl, rfl, rfl⟩
        · exact ⟨rfl, rfl, rfl, rfl⟩
        · exact ⟨rfl, rfl, rfl, rfl⟩
  · unfold _execute
    rw [loopGo_events, phaseWrites_append, phaseWrites_blocksJoin, hphasetail,
      List.append_nil]
  · rw [hiterw]
    exact chain_le_range' _ _

/-- C6 witness: the capped two-iteration run writes phases
writing, judging, writing, judging and iterations 1, 2. -/
theorem job_phase_order_witness :
    phaseWrites (_execute ("t") false 2 draftStream judgeAlwaysFail d0).2 =
      (List.replicate 2 ["writing", "judging"]).flatten ∧
    iterationWrites (_execute ("t") false 2 draftStream judgeAlwaysFail d0).2 =
      List.range' 1 2 ∧
    List.Chain' (· ≤ ·)
      (iterationWrites (_execute ("t") false 2 draftStream judgeAlwaysFail d0).2) := by
  obtain ⟨tail, h1, h2, h3, h4, h5⟩ :=
    job_phase_order ("t") false 2 draftStream judgeAlwaysFail d0
  have hc : itersExecuted draftStream judgeAlwaysFail 2 1 none = 2 := by decide
  rw [hc] at h3 h4
  exact ⟨h3, h4, h5⟩

theorem loopGo_durations_irrel (topic : String) (verbose : Bool) (maxIterations : Nat)
    (writerF : WriterStream) (judgeF : JudgeStream) (durations durations' : Nat → Int) :
    ∀ (fuel n : Nat) (fb : Option (List String)) (hist : List IterationRecord),
      loopGo topic verbose maxIterations writerF judgeF durations n fuel fb hist =
      loopGo topic verbose maxIterations writerF judgeF durations' n fuel fb hist
  | 0, _, _, _ => rfl
  | fuel + 1, n, fb, hist => by
      simp only [loopGo]
      by_cases hp : (judgeF n (writerF n fb)).verdict = "pass"
      · rw [if_pos hp, if_pos hp]
        rfl
      · rw [if_neg hp, if_neg hp]
        rw [loopGo_durations_irrel topic verbose maxIterations writerF judgeF
          durations durations' fuel (n + 1) (some (judgeF n (writerF n fb)).annotations)
          (hist ++ [mkIterationRecordLoop n (writerF n fb) (judgeF n (writerF n fb)).verdict
            (judgeF n (writerF n fb)).annotations (durations n)])]
        rfl

/-- C7: the elapsed duration computed by the loop never reaches the stored
IterationRecord.  loop.py passes duration_seconds to the IterationRecord
constructor, but the pydantic model in schemas.py declares no such field and
drops the unknown keyword, so the constructor result is independent of the
duration, the whole run is independent of the duration stream, and a concrete
accepting run stores exactly the four declared fields and nothing else. -/
theorem iteration_record_drops_duration :
    (∀ (i : Nat) (w v : String) (a : List String) (d d' : Int),
      mkIterationRecordLoop i w v a d = mkIterationRecordLoop i w v a d') ∧
    (∀ (topic : String) (verbose : Bool) (maxIterations : Nat)
      (writerF : WriterStream) (judgeF : JudgeStream) (durations durations' : Nat → Int),
      _execute topic verbose maxIterations writerF judgeF durations =
        _execute topic verbose maxIterations writerF judgeF durations') ∧
    (_execute ("t") true 1 draftStream (judgePassAt 1) d0).1 =
      Sum.inl ⟨true, "draft 1", 1, some [⟨1, "draft 1", "pass", []⟩]⟩ := by
  refine ⟨fun i w v a d d' => rfl, ?_, by decide⟩
  intro topic verbose maxIterations writerF judgeF durations durations'
  unfold _execute
  exact loopGo_durations_irrel topic verbose maxIterations writerF judgeF
    durations durations' maxIterations 1 none []

/-- C8 counterexample: when the Judge returns fail with zero annotations at
iteration 1, the Orchestrator does not surface any defect — it continues with
feedback set to the empty list and finishes with an ordinary Success at
iteration 2, and the Writer builds exactly the prompts of a no-feedback call
for that empty list, so the contract violation is silently accepted. -/
theorem empty_fail_feedback_counterexample :
    (_execute ("t") false 2 draftStream judgeEmptyFailThenPass d0).1 =
      Sum.inl ⟨true, "draft 2", 2, none⟩ ∧
    writerFeedbacks (_execute ("t") false 2 draftStream judgeEmptyFailThenPass d0).2 =
      [none, some []] ∧
    _build_plan_query ("t") (some []) = _build_plan_query ("t") none ∧
    _build_system_prompt tplEx rulesEx ("t") (some []) ("r") =
      _build_system_prompt tplEx rulesEx ("t") none ("r") :=
  ⟨by decide, by decide, rfl, rfl⟩

/-- C8 amended: a fail verdict with an empty annotation list is silently
accepted, not surfaced: the next Writer call receives feedback = the empty
list, and both the plan query and the drafting system prompt built from an
empty feedback list are identical to the ones built with no feedback at all. -/
theorem empty_fail_feedback_amended (topic : String) (tpl : List TemplatePiece)
    (rules : ArticleRules) (research : String) (verbose : Bool) (maxIterations : Nat)
    (writerF : WriterStream) (judgeF : JudgeStream) (durations : Nat → Int)
    (i : Nat) (fb : Option (List String))
    (hcall : (writerFeedbacks
      (_execute topic verbose maxIterations writerF judgeF durations).2)[i + 1]? =
      some fb)
    (hempty : (resultAt writerF judgeF (i + 1)).annotations = []) :
    fb = some [] ∧
    _build_plan_query topic (some []) = _build_plan_query topic none ∧
    _build_system_prompt tpl rules topic (some []) research =
      _build_system_prompt tpl rules topic none research := by
  refine ⟨?_, rfl, rfl⟩
  have h := writerFeedbacks_execute_get topic verbose maxIterations writerF judgeF
    durations (i + 1) fb hcall
  rw [h]
  show some (resultAt writerF judgeF (i + 1)).annotations = some []
  rw [hempty]

/-- C8 amended witness: the concrete run of the counterexample discharges the
hypotheses of the amended statement at iteration 1. -/
theorem empty_fail_feedback_amended_witness :
    some [] = some ([] : List String) ∧
    _build_plan_query ("t") (some []) = _build_plan_query ("t") none ∧
    _build_system_prompt tplEx rulesEx ("t") (some []) ("r") =
      _build_system_prompt tplEx rulesEx ("t") none ("r") :=
  empty_fail_feedback_amended ("t") tplEx rulesEx ("r") false 2
    draftStream judgeEmptyFailThenPass d0 0 (some []) (by decide) (by decide)

/-- C9: the drafting system instruction contains, as substrings, the
configured structural rule values — max word count, max paragraph count, each
required section name, the tone — and, when a non-empty feedback list is
given and the template has the feedback placeholder, every feedback
annotation; with absent feedback the feedback block contributes nothing: the
instruction equals the one for an empty list and equals the one rendered from
a template with the feedback placeholder removed. -/
theorem writer_prompt_substrings (tpl : List TemplatePiece) (rules : ArticleRules)
    (topic research : String) (feedback : Option (List String)) :
    substr (toString rules.max_word_count)
      (_build_system_prompt tpl rules topic feedback research) ∧
    substr (toString rules.max_paragraph_count)
      (_build_system_prompt tpl rules topic feedback research) ∧
    (∀ s ∈ rules.required_sections,
      substr s (_build_system_prompt tpl rules topic feedback research)) ∧
    substr rules.tone (_build_system_prompt tpl rules topic feedback research) ∧
    (TemplatePiece.feedbackSlot ∈ tpl → ∀ l, feedback = some l →
      ∀ a ∈ l, substr a (_build_system_prompt tpl rules topic feedback research)) ∧
    _build_system_prompt tpl rules topic none research =
      _build_system_prompt tpl rules topic (some []) research ∧
    _build_system_prompt tpl rules topic none research =
      _build_system_prompt (dropFeedbackSlots tpl) rules topic none research := by
  have hmwc : substr (toString rules.max_word_count) (rulesText rules) := by
    unfold rulesText
    exact substr_append_left _ (substr_append_left _ (substr_append_left _
      (substr_append_left _ (substr_append_left _ (substr_append_left _
      (substr_append_left _ (substr_append_left _ (substr_append_left _
      (substr_append_right _ (substr_self _))))))))))
  have hmpc : substr (toString rules.max_paragraph_count) (rulesText rules) := by
    unfold rulesText
    exact substr_append_left _ (substr_append_left _ (substr_append_left _
      (substr_append_left _ (substr_append_left _ (substr_append_left _
      (substr_append_right _ (substr_self _)))))))
  have hsec : ∀ s ∈ rules.required_sections, substr s (rulesText rules) := by
    intro s hs
    unfold rulesText
    exact substr_append_left _ (substr_append_left _ (substr_append_left _
      (substr_append_right _ (substr_joinSep _ hs))))
  have htone : substr rules.tone (rulesText rules) := by
    unfold rulesText
    exact substr_append_right _ (substr_self _)
  have hlift : ∀ x, substr x (rulesText rules) →
      substr x (_build_system_prompt tpl rules topic feedback research) := by
    intro x hx
    unfold _build_system_prompt
    exact substr_append_right _ hx
  refine ⟨hlift _ hmwc, hlift _ hmpc, fun s hs => hlift _ (hsec s hs), hlift _ htone,
    ?_, rfl, ?_⟩
  · intro hslot l hl a ha
    subst hl
    rcases l with _ | ⟨x, xs⟩
    · exact absurd ha (List.not_mem_nil a)
    · have h1 : substr a (feedbackTextOf (some (x :: xs))) := substr_feedbackTextOf ha
      have h2 : substr a (renderTemplate tpl topic (feedbackTextOf (some (x :: xs)))) :=
        substr_trans h1 (substr_renderTemplate topic hslot)
      unfold _build_system_prompt
      exact substr_append_left _ (substr_append_left _ (substr_append_left _
        (substr_append_left _ (substr_append_left _ (substr_append_left _ h2)))))
  · unfold _build_system_prompt
    rw [show feedbackTextOf none = ("") from rfl,
      renderTemplate_dropFeedbackSlots topic tpl]

/-- C9 witness: a concrete template, rules, and feedback list exhibit the
word count and the annotation as substrings of the built instruction. -/
theorem writer_prompt_substrings_witness :
    substr (toString rulesEx.max_word_count)
      (_build_system_prompt tplEx rulesEx ("t") (some ["fix X"]) ("r")) ∧
    substr ("fix X") (_build_system_prompt tplEx rulesEx ("t") (some ["fix X"]) ("r")) :=
  ⟨(writer_prompt_substrings tplEx rulesEx ("t") ("r") (some ["fix X"])).1,
   (writer_prompt_substrings tplEx rulesEx ("t") ("r") (some ["fix X"])).2.2.2.2.1
     (by decide) ["fix X"] rfl ("fix X") (by decide)⟩

/-- C10: the loop accepts at iteration k exactly when the Judge verdict at k
is the literal string pass and no earlier verdict is; the Judge hands the
backend verdict string through unvalidated, so any other value — PASS, maybe,
anything outside the schema — takes the fail branch, whose feedback is the
verbatim annotation list threaded to the next Writer call. -/
theorem accept_iff_verdict_pass (topic : String) (verbose : Bool) (maxIterations : Nat)
    (writerF : WriterStream) (judgeF : JudgeStream) (durations : Nat → Int) (k : Nat) :
    ((∃ r : GenerateResponse,
        (_execute topic verbose maxIterations writerF judgeF durations).1 = Sum.inl r ∧
        r.iterations = k) ↔
      (1 ≤ k ∧ k ≤ maxIterations ∧ (resultAt writerF judgeF k).verdict = "pass" ∧
        ∀ i, i < k → 1 ≤ i → (resultAt writerF judgeF i).verdict ≠ "pass")) ∧
    (∀ d : VerdictData, (judgeResultOfData d).verdict = d.verdict) ∧
    (∀ i fb,
      (writerFeedbacks
        (_execute topic verbose maxIterations writerF judgeF durations).2)[i + 1]? =
        some fb →
      fb = some (resultAt writerF judgeF (i + 1)).annotations) := by
  refine ⟨⟨?_, ?_⟩, fun d => rfl, ?_⟩
  · rintro ⟨r, hres, hk⟩
    unfold _execute at hres
    obtain ⟨j, hj, hpre, hpass, hiter⟩ :=
      loopGo_inl topic verbose maxIterations writerF judgeF durations
        maxIterations 1 none [] r hres
    have hkj : k = j + 1 := by
      rw [← hk, hiter]
      omega
    subst hkj
    refine ⟨by omega, by omega, ?_, ?_⟩
    · rw [resultAt_eq_from]
      exact hpass
    · intro i h1 h2
      obtain ⟨i', rfl⟩ : ∃ i', i = i' + 1 := ⟨i - 1, by omega⟩
      rw [resultAt_eq_from]
      exact hpre i' (by omega)
  · rintro ⟨hk1, hk2, hpass, hpre⟩
    obtain ⟨j, rfl⟩ : ∃ j, k = j + 1 := ⟨k - 1, by omega⟩
    unfold _execute
    refine ⟨_, loopGo_accept topic verbose maxIterations writerF judgeF durations
      maxIterations j 1 none [] (by omega)
      (fun i hi => by
        rw [← resultAt_eq_from]
        exact hpre (i + 1) (by omega) (by omega))
      (by rw [← resultAt_eq_from]; exact hpass), ?_⟩
    show 1 + j = j + 1
    omega
  · intro i fb h
    have hfb := writerFeedbacks_execute_get topic verbose maxIterations writerF judgeF
      durations (i + 1) fb h
    rw [hfb]
    rfl

/-- C10 witness: the accepting run at iteration 1 satisfies the verdict
characterisation, and an upper-case PASS verdict is handed through verbatim by
the Judge rather than being normalised to pass. -/
theorem accept_iff_verdict_pass_witness :
    (1 ≤ 1 ∧ 1 ≤ 1 ∧ (resultAt draftStream (judgePassAt 1) 1).verdict = "pass" ∧
      ∀ i, i < 1 → 1 ≤ i → (resultAt draftStream (judgePassAt 1) i).verdict ≠ "pass") ∧
    (judgeResultOfData ⟨"PASS", some []⟩).verdict = "PASS" :=
  ⟨(accept_iff_verdict_pass ("t") false 1 draftStream (judgePassAt 1) d0 1).1.mp
      ⟨acceptRespEx, by decide, by decide⟩,
   (accept_iff_verdict_pass ("t") false 1 draftStream judgeUpperPass d0 1).2.1
      ⟨"PASS", some []⟩⟩
